import Mathlib

/-!
Verification of the paperflow ingestion pipeline against its specification.

The models below are shallow embeddings of the Python sources:
* `JournalRanker` embeds `src/arxiv_zotero/utils/journal_ranker.py`
  (weights, default scores, normalization, composite scoring);
* later sections embed the Zotero client's caches, duplicate resolution and
  rate limiter (`src/arxiv_zotero/clients/zotero_client.py`), the batch
  orchestrator (`src/arxiv_zotero/core/connector.py`) and the per-paper
  pipeline (`src/arxiv_zotero/core/paper_processor.py`).

Python floats and wall-clock times are represented by rationals; Python dicts
by association lists looked up from the front; a raised exception by
`Except String`.
-/

namespace JournalRanker

/-- Association-list lookup, mirroring Python `d.get(k)`: the first binding
for `k`, if any. -/
def dget? (d : List (String × α)) (k : String) : Option α :=
  (d.find? (fun p => p.1 == k)).map Prod.snd

/-- Python `d[k]`: raises `KeyError` when the key is absent. -/
def dict_item (d : List (String × α)) (k : String) : Except String α :=
  match dget? d k with
  | some v => Except.ok v
  | none => Except.error "KeyError"

/-- `JournalRanker.DEFAULT_WEIGHTS` -/
def DEFAULT_WEIGHTS : List (String × ℚ) :=
  [("cited_by_percentile", 1/2), ("h_index", 3/10), ("impact_factor", 1/5)]

/-- `JournalRanker.DEFAULT_SCORES` -/
def DEFAULT_SCORES : List (String × ℚ) :=
  [("cited_by_percentile", 50), ("h_index", 10), ("impact_factor", 1)]

/-- `JournalRanker.NORMALIZATION_RANGES` -/
def NORMALIZATION_RANGES : List (String × (ℚ × ℚ)) :=
  [("cited_by_percentile", (0, 100)), ("h_index", (1, 500)), ("impact_factor", (1/10, 50))]

/-- The weight-storing step of `JournalRanker.__init__`: keep the given
weights, but when their total differs from 1 by more than 0.01, divide each
weight by the total. -/
def init_weights (weights : List (String × ℚ)) : List (String × ℚ) :=
  if 1/100 < |(weights.map Prod.snd).sum - 1| then
    weights.map (fun p => (p.1, p.2 / (weights.map Prod.snd).sum))
  else weights

/-- `JournalRanker._normalize_value`: min-max normalization into [0,1],
clamped; looks the range up with `self.NORMALIZATION_RANGES[metric_name]`. -/
def normalize_value (value : ℚ) (metric_name : String) : Except String ℚ := do
  let r ← dict_item NORMALIZATION_RANGES metric_name
  let normalized := (value - r.1) / (r.2 - r.1)
  return max 0 (min 1 normalized)

/-- `JournalRanker._calculate_metric_score`: substitute the configured default
when the metric is absent or exactly zero, then normalize and scale to 0-100.
The default is read with `self.default_scores[metric_name]` (KeyError when
missing). -/
def calculate_metric_score (default_scores : List (String × ℚ))
    (metrics : String → Option ℚ) (metric_name : String) : Except String ℚ := do
  let value ← match metrics metric_name with
    | none => dict_item default_scores metric_name
    | some v => if v = 0 then dict_item default_scores metric_name else pure v
  let normalized ← normalize_value value metric_name
  return normalized * 100

/-- The fixed metric list iterated by `calculate_composite_score`. -/
def METRIC_NAMES : List String := ["cited_by_percentile", "h_index", "impact_factor"]

/-- `JournalRanker.calculate_composite_score`: first loop computes the three
metric scores, second loop multiplies each by `self.weights[name]`
(KeyError when a weight is missing) and sums. -/
def calculate_composite_score (weights default_scores : List (String × ℚ))
    (metrics : String → Option ℚ) : Except String ℚ := do
  let scores ← METRIC_NAMES.mapM (fun name => do
    let s ← calculate_metric_score default_scores metrics name
    return (name, s))
  let terms ← scores.mapM (fun p => do
    let w ← dict_item weights p.1
    return p.2 * w)
  return terms.sum

/-- The metrics map with every metric at the top of its normalization range. -/
def max_metrics : String → Option ℚ :=
  fun name => dget? [("cited_by_percentile", 100), ("h_index", 500), ("impact_factor", 50)] name

/-- A weight map whose values sum to 1.005: within the 0.01 tolerance of
`__init__`, but not equal to 1. -/
def near_one_weights : List (String × ℚ) :=
  [("cited_by_percentile", 101/200), ("h_index", 3/10), ("impact_factor", 1/5)]

end JournalRanker


namespace ZoteroClient

/-- Whitespace for Python `str.strip()`. -/
def pyspace (c : Char) : Bool :=
  c = ' ' ∨ c = '\t' ∨ c = '\n' ∨ c = '\r' ∨ c = '\x0b' ∨ c = '\x0c'

/-- Python `str.strip()`: drop whitespace from both ends. -/
def strip (s : String) : String :=
  String.mk (((s.data.dropWhile pyspace).reverse.dropWhile pyspace).reverse)

/-- `CACHE_TTL_SECONDS` (zotero_client.py line 22). -/
def CACHE_TTL_SECONDS : ℚ := 300

/-- `LOOKUP_CACHE_MAX_SIZE` (line 23). -/
def LOOKUP_CACHE_MAX_SIZE : ℕ := 1000

/-- `LOOKUP_CACHE_EVICT_SIZE` (line 24). -/
def LOOKUP_CACHE_EVICT_SIZE : ℕ := 200

/-- One item of a remote listing: its data fields and its key. -/
structure Item where
  fields : List (String × String)
  key : String
deriving DecidableEq

/-- `item_data.get(field, "")`. -/
def fieldValue (it : Item) (field : String) : String :=
  ((it.fields.find? (fun p => p.1 == field)).map Prod.snd).getD ""

/-- The cache and statistics state of `ZoteroClient`, together with ghost
fields recording the remote store's listing responses and the number of
listing requests issued. -/
structure ClientState where
  arxiv_id_cache : List (String × String)
  cache_timestamp : Option ℚ
  lookup_cache : List (String × Option String)
  lookup_cache_hits : ℕ
  lookup_cache_misses : ℕ
  listings : ℕ
  store : List Item
  coll_store : List Item
  collection_key : Option String
deriving DecidableEq

/-- `ZoteroClient._is_cache_valid`. -/
def is_cache_valid (s : ClientState) (now : ℚ) : Bool :=
  match s.cache_timestamp with
  | none => false
  | some t => decide (now - t < CACHE_TTL_SECONDS)

/-- The cache-building loop of `_refresh_arxiv_id_cache`: for each listed item
with a nonempty `archiveLocation`, bind its stripped value to the item key.
A later item overwrites an earlier binding in the Python dict, so its pair is
placed in front of the association list. -/
def build_arxiv_cache : List Item → List (String × String)
  | [] => []
  | it :: rest =>
      build_arxiv_cache rest ++
        (if fieldValue it "archiveLocation" ≠ "" then
          [(strip (fieldValue it "archiveLocation"), it.key)]
        else [])

/-- `ZoteroClient._refresh_arxiv_id_cache`.  `ok = false` injects the
exception branch (lines 147-151): empty cache and cleared timestamp. -/
def refresh_arxiv_id_cache (s : ClientState) (now : ℚ) (ok : Bool) : ClientState :=
  if ok then
    { s with listings := s.listings + 1,
             arxiv_id_cache := build_arxiv_cache s.store,
             cache_timestamp := some now }
  else
    { s with arxiv_id_cache := [], cache_timestamp := none }

/-- The scan loop of `check_duplicate`: first listed item whose value in the
identifier field is nonempty and equals the identifier after stripping. -/
def scan_for_field (items : List Item) (field ident : String) : Option String :=
  items.findSome? (fun it =>
    if fieldValue it field ≠ "" ∧ strip (fieldValue it field) = strip ident then some it.key
    else none)

/-- Membership test plus read of the generic lookup cache
(`cache_key in self._lookup_cache` and `self._lookup_cache[cache_key]`). -/
def lookup_cache_get (s : ClientState) (k : String) : Option (Option String) :=
  (s.lookup_cache.find? (fun p => p.1 == k)).map Prod.snd

/-- `ZoteroClient.check_duplicate`.  `now` is the clock at the call;
`list_ok = false` injects an exception raised by the remote listing of this
call, which the outer `except` handler turns into `None` (line 429).
Returns the result together with the updated client state. -/
def check_duplicate (s : ClientState) (now : ℚ) (identifier : String)
    (identifier_field : String) (collection_only : Bool) (list_ok : Bool) :
    Option String × ClientState :=
  if collection_only ∧ s.collection_key.isSome then
    if list_ok then
      (scan_for_field s.coll_store identifier_field identifier,
        { s with listings := s.listings + 1 })
    else (none, s)
  else if identifier_field = "archiveLocation" then
    let s1 := if is_cache_valid s now then s else refresh_arxiv_id_cache s now list_ok
    ((s1.arxiv_id_cache.find? (fun p => p.1 == strip identifier)).map Prod.snd, s1)
  else
    match lookup_cache_get s (identifier_field ++ ":" ++ identifier) with
    | some cached => (cached, { s with lookup_cache_hits := s.lookup_cache_hits + 1 })
    | none =>
      let s1 := { s with lookup_cache_misses := s.lookup_cache_misses + 1 }
      if list_ok then
        let s2 := if LOOKUP_CACHE_MAX_SIZE ≤ s1.lookup_cache.length then
            { s1 with lookup_cache := s1.lookup_cache.drop LOOKUP_CACHE_EVICT_SIZE }
          else s1
        (scan_for_field s2.store identifier_field identifier,
          { s2 with listings := s2.listings + 1 })
      else (none, s1)

/-- A client state holding one generic-cache entry (inserted at time 0 in the
scenarios below) and nothing else. -/
def stale_entry_state : ClientState :=
  { arxiv_id_cache := [], cache_timestamp := none,
    lookup_cache := [("DOI:10.1234/x", some "K")],
    lookup_cache_hits := 0, lookup_cache_misses := 0,
    listings := 0, store := [], coll_store := [], collection_key := none }

/-- A fresh client state whose remote store already holds an item with
arXiv id `2401.00001` under key `K`. -/
def present_item_state : ClientState :=
  { arxiv_id_cache := [], cache_timestamp := none,
    lookup_cache := [],
    lookup_cache_hits := 0, lookup_cache_misses := 0,
    listings := 0,
    store := [{ fields := [("archiveLocation", "2401.00001")], key := "K" }],
    coll_store := [], collection_key := none }

/-- A fresh client state with an empty remote store. -/
def empty_client_state : ClientState :=
  { arxiv_id_cache := [], cache_timestamp := none,
    lookup_cache := [],
    lookup_cache_hits := 0, lookup_cache_misses := 0,
    listings := 0, store := [], coll_store := [], collection_key := none }

end ZoteroClient


namespace Orchestrator

/-- The result of `PaperProcessor.process_paper` for one paper, as observed
by the inner `process_paper` wrapper of `run_collection_async`: a returned
boolean, or a raised exception (which the wrapper catches). -/
inductive Outcome where
  | ok : Bool → Outcome
  | raised : Outcome
deriving DecidableEq

/-- The counting loop of `run_collection_async` (connector.py lines 205-217):
each paper's outcome increments exactly one of the two counters; a raised
exception is caught and counted as a failure, never re-raised. -/
def tally : List Outcome → ℕ × ℕ
  | [] => (0, 0)
  | Outcome.ok true :: rest => ((tally rest).1 + 1, (tally rest).2)
  | Outcome.ok false :: rest => ((tally rest).1, (tally rest).2 + 1)
  | Outcome.raised :: rest => ((tally rest).1, (tally rest).2 + 1)

/-- `run_collection_async` after the search step: an empty batch returns
`(0, 0)` at once (line 200); otherwise every paper is processed and the
outcomes are tallied into `(successful, failed)`. -/
def run_collection_async (outcomes : List Outcome) : ℕ × ℕ :=
  if outcomes = [] then (0, 0) else tally outcomes

end Orchestrator

namespace PaperProcessor

/-- A remote interaction performed while processing one paper. -/
inductive Call where
  | duplicate_check
  | create
  | add_to_collection
  | download_pdf
  | upload_attachment
deriving DecidableEq

/-- The environment of one `process_paper` run: what each step returns if it
is performed — the duplicate-resolver answer, the created item key, and the
outcomes of the collection add, the PDF download and the attachment upload. -/
structure Env where
  dup_result : Option String
  create_result : Option String
  add_ok : Bool
  pdf_ok : Bool
  upload_ok : Bool

/-- The tail of `process_paper` after the duplicate check found nothing:
create the item, optionally add it to the collection, optionally download
and attach the PDF (paper_processor.py lines 107-168). -/
def process_rest (env : Env) (collection_key : Option String) (download_pdfs : Bool)
    (acc : List Call) : Bool × List Call :=
  match env.create_result with
  | none => (false, acc ++ [Call.create])
  | some _ =>
    let acc1 := acc ++ [Call.create]
    if collection_key.isSome ∧ env.add_ok = false then
      (false, acc1 ++ [Call.add_to_collection])
    else
      let acc2 := if collection_key.isSome then acc1 ++ [Call.add_to_collection] else acc1
      if download_pdfs then
        if env.pdf_ok = false then (false, acc2 ++ [Call.download_pdf])
        else if env.upload_ok = false then
          (false, acc2 ++ [Call.download_pdf, Call.upload_attachment])
        else (true, acc2 ++ [Call.download_pdf, Call.upload_attachment])
      else (true, acc2)

/-- `PaperProcessor.process_paper` (lines 59-172) for a paper whose source id
is `paper_id`, recording the remote calls it makes in order.  When the
duplicate check returns an existing item key, the function returns success
immediately. -/
def process_paper (env : Env) (paper_id : Option String)
    (collection_key : Option String) (download_pdfs : Bool) : Bool × List Call :=
  match paper_id with
  | some _ =>
    match env.dup_result with
    | some _ => (true, [Call.duplicate_check])
    | none => process_rest env collection_key download_pdfs [Call.duplicate_check]
  | none => process_rest env collection_key download_pdfs []

end PaperProcessor

namespace RunStateResolver

/-- Modelled from the spec: the run-state duplicate resolver of
`paperflow/clients/zotero_client.py` is not under the source tree (only its
tests are), so its state is modelled from the spec — "RunState: a
process-lifetime, batch-scoped set of IdentifierKeys already created in the
current orchestration run" (§3), consulted before any cache or remote
lookup (§4.3 step 1), with the identifier registered immediately upon a
successful create (§4.4).  `store` abstracts the cache/remote tiers behind
the run-state check; `creates` is the ghost list of identifiers for which a
create call reached the remote store. -/
structure RState where
  created_papers : List (String × String)
  store : List (String × String)
  creates : List String
  next_key : ℕ
deriving DecidableEq

/-- Association lookup for the run-state set and the store. -/
def rget? (d : List (String × String)) (k : String) : Option String :=
  (d.find? (fun p => p.1 == k)).map Prod.snd

/-- Modelled from the spec (§4.3): step 1 consults RunState and returns the
already-created id immediately; only on a run-state miss are the cache and
the remote store consulted (abstracted as one lookup). -/
def check_duplicate (s : RState) (identifier : String) : Option String :=
  match rget? s.created_papers identifier with
  | some k => some k
  | none => rget? s.store identifier

/-- Modelled from the spec (§4.4): the create call reaches the remote store
and the identifier is registered in RunState immediately upon success. -/
def create_item (s : RState) (identifier : String) : RState × String :=
  let k := "item" ++ toString s.next_key
  ({ s with created_papers := (identifier, k) :: s.created_papers,
            store := (identifier, k) :: s.store,
            creates := s.creates ++ [identifier],
            next_key := s.next_key + 1 }, k)

/-- Process one record: return the resolved duplicate if there is one,
otherwise create the item. -/
def process_record (s : RState) (identifier : String) : RState × String :=
  match check_duplicate s identifier with
  | some k => (s, k)
  | none => create_item s identifier

/-- Process a batch of records sequentially. -/
def run_batch (s : RState) : List String → RState
  | [] => s
  | x :: xs => run_batch (process_record s x).1 xs

/-- A fresh orchestration run over a given remote store. -/
def init_state (store : List (String × String)) : RState :=
  { created_papers := [], store := store, creates := [], next_key := 0 }

/-- A run state in which `2401.00001` has already been created as `item0`. -/
def one_created_state : RState :=
  { created_papers := [("2401.00001", "item0")], store := [("2401.00001", "item0")],
    creates := ["2401.00001"], next_key := 1 }

end RunStateResolver


namespace RateLimiter

/-- `ZOTERO_RATE_LIMIT_WINDOW` (zotero_client.py line 15). -/
def ZOTERO_RATE_LIMIT_WINDOW : ℚ := 600

/-- `ZOTERO_RATE_LIMIT_MAX_REQUESTS` (line 16), also the deque `maxlen`. -/
def ZOTERO_RATE_LIMIT_MAX_REQUESTS : ℕ := 100

/-- `ZOTERO_RATE_LIMIT_THRESHOLD` (line 17). -/
def ZOTERO_RATE_LIMIT_THRESHOLD : ℕ := 90

/-- `ZOTERO_MIN_REQUEST_INTERVAL` (line 18). -/
def ZOTERO_MIN_REQUEST_INTERVAL : ℚ := 6

/-- `ZOTERO_RATE_LIMIT_BUFFER` (line 19). -/
def ZOTERO_RATE_LIMIT_BUFFER : ℚ := 5

/-- The limiter state: the `request_times` deque (oldest first), the ghost
list `hist` of every timestamp ever recorded by `_track_request`, and the
current clock. -/
structure LState where
  request_times : List ℚ
  hist : List ℚ
  now : ℚ

/-- The pruning loop of `_rate_limit` (lines 88-89): pop timestamps `x` with
`now - x > window` from the left. -/
def prune (t0 : ℚ) (l : List ℚ) : List ℚ :=
  l.dropWhile (fun x => decide (ZOTERO_RATE_LIMIT_WINDOW < t0 - x))

/-- The threshold sleep (lines 92-99): when at least 90 recorded requests
remain after pruning, sleep `window - (now - oldest) + buffer`, but only if
that is positive. -/
def sleep1 (t0 : ℚ) (pruned : List ℚ) : ℚ :=
  if ZOTERO_RATE_LIMIT_THRESHOLD ≤ pruned.length then
    max 0 (ZOTERO_RATE_LIMIT_WINDOW - (t0 - pruned.headD 0) + ZOTERO_RATE_LIMIT_BUFFER)
  else 0

/-- The minimum-interval sleep (lines 101-105), computed from the entry
clock `t0` (the code reuses the `now` read at the top of `_rate_limit`,
even after the threshold sleep). -/
def sleep2 (t0 : ℚ) (pruned : List ℚ) : ℚ :=
  match pruned.getLast? with
  | none => 0
  | some x =>
      if t0 - x < ZOTERO_MIN_REQUEST_INTERVAL then
        ZOTERO_MIN_REQUEST_INTERVAL - (t0 - x)
      else 0

/-- One guarded request.  The caller waits `c ≥ 0` before calling
`_rate_limit`, so the entry clock is `st.now + c`; `_rate_limit` prunes and
applies its two sleeps sequentially; the API call then takes `d ≥ 0`; and
`_track_request` appends the clock of its own call.  The deque was created
with `maxlen = 100`, so appending to a full deque drops the oldest entry. -/
def acquire (st : LState) (c d : ℚ) : LState :=
  let t0 := st.now + c
  let pruned := prune t0 st.request_times
  let t1 := t0 + sleep1 t0 pruned + sleep2 t0 pruned + d
  { request_times :=
      if pruned.length = ZOTERO_RATE_LIMIT_MAX_REQUESTS then pruned.tail ++ [t1]
      else pruned ++ [t1],
    hist := st.hist ++ [t1],
    now := t1 }

/-- A sequence of guarded requests, one per `(c, d)` pair of the schedule. -/
def run (st : LState) : List (ℚ × ℚ) → LState
  | [] => st
  | p :: ps => run (acquire st p.1 p.2) ps

/-- The limiter state of a freshly constructed client at clock `t`. -/
def init_state (t : ℚ) : LState := { request_times := [], hist := [], now := t }

/-- Caller gaps and call durations are nonnegative. -/
def ValidSchedule (l : List (ℚ × ℚ)) : Prop := ∀ p ∈ l, 0 ≤ p.1 ∧ 0 ≤ p.2

/-- Invariant of every reachable limiter state: the recorded timestamps are
spaced by at least the minimum interval and bounded by the clock; the deque
is a suffix of the history ending at the clock; the deque holds at most 91
timestamps, and when it holds 91 its head has already aged out of the
window by more than the buffer; timestamps no longer in the deque are older
than the window; and any two timestamps 100 apart in the history are more
than a window apart. -/
structure Inv (st : LState) : Prop where
  gaps : st.hist.Pairwise (fun a b => a + ZOTERO_MIN_REQUEST_INTERVAL ≤ b)
  le_now : ∀ x ∈ st.hist, x ≤ st.now
  suffix : st.request_times <:+ st.hist
  last_eq : st.hist ≠ [] → st.request_times.getLast? = some st.now
  len_le : st.request_times.length ≤ 91
  len91 : st.request_times.length = 91 → ∀ h, st.request_times.head? = some h →
    h + ZOTERO_RATE_LIMIT_WINDOW + ZOTERO_RATE_LIMIT_BUFFER ≤ st.now
  removed : ∀ x ∈ st.hist, x ∉ st.request_times →
    x + ZOTERO_RATE_LIMIT_WINDOW < st.now
  far : ∀ i : ℕ, i + 100 < st.hist.length →
    st.hist.getD i 0 + ZOTERO_RATE_LIMIT_WINDOW < st.hist.getD (i + 100) 0

end RateLimiter

-- ===== end of definitions, start of theorems =====

namespace JournalRanker

theorem sum_map_div (l : List ℚ) (t : ℚ) : (l.map (fun x => x / t)).sum = l.sum / t := by
  induction l with
  | nil => simp
  | cons a l ih => simp [ih, add_div]

theorem calculate_metric_score_ok (default_scores : List (String × ℚ))
    (metrics : String → Option ℚ) (name : String)
    (hd : (dget? default_scores name).isSome)
    (hr : (dget? NORMALIZATION_RANGES name).isSome) :
    ∃ q, calculate_metric_score default_scores metrics name = Except.ok q := by
  obtain ⟨d, hd⟩ := Option.isSome_iff_exists.mp hd
  obtain ⟨r, hr⟩ := Option.isSome_iff_exists.mp hr
  cases hm : metrics name with
  | none =>
    refine ⟨max 0 (min 1 ((d - r.1) / (r.2 - r.1))) * 100, ?_⟩
    simp [calculate_metric_score, normalize_value, dict_item, hd, hr, hm, bind, Except.bind,
      pure, Except.pure]
  | some v =>
    by_cases hv : v = 0
    · refine ⟨max 0 (min 1 ((d - r.1) / (r.2 - r.1))) * 100, ?_⟩
      simp [calculate_metric_score, normalize_value, dict_item, hd, hr, hm, hv, bind, Except.bind,
        pure, Except.pure]
    · refine ⟨max 0 (min 1 ((v - r.1) / (r.2 - r.1))) * 100, ?_⟩
      simp [calculate_metric_score, normalize_value, dict_item, hd, hr, hm, hv, bind, Except.bind,
        pure, Except.pure]

/-- **C9 counterexample.** The weight map `{percentile: 0.505, h_index: 0.30,
impact_factor: 0.20}` does not sum to 1, yet the constructor keeps it
unchanged (its total is within the 0.01 tolerance), the stored weights still
sum to 201/200 ≠ 1, and the composite score of a record with every metric at
its maximum is 100.5 > 100. -/
theorem init_weights_near_one_not_rescaled :
    init_weights near_one_weights = near_one_weights ∧
      ((init_weights near_one_weights).map Prod.snd).sum ≠ 1 ∧
      calculate_composite_score (init_weights near_one_weights) DEFAULT_SCORES max_metrics =
        Except.ok (201/2) := by
  have hkeep : init_weights near_one_weights = near_one_weights := by
    have hc : ¬ (1/100 < |((near_one_weights.map Prod.snd).sum) - 1|) := by
      norm_num [near_one_weights, abs_le]
    unfold init_weights
    rw [if_neg hc]
  refine ⟨hkeep, ?_, ?_⟩
  · rw [hkeep]; norm_num [near_one_weights]
  · rw [hkeep]
    simp [calculate_composite_score, METRIC_NAMES, List.mapM, List.mapM.loop,
      calculate_metric_score, normalize_value, dict_item, dget?, max_metrics, near_one_weights,
      DEFAULT_SCORES, NORMALIZATION_RANGES, bind, Except.bind, pure, Except.pure]
    norm_num

/-- **C9 (amended).** For every weight map with positive total: the stored
weights after construction sum to within 0.01 of 1, and whenever the given
total differs from 1 by more than 0.01 the constructor rescales so that the
stored weights sum to exactly 1.  (The claim's "values do not sum to exactly
1" trigger is weakened to "total differs from 1 by more than 0.01", the
tolerance the constructor actually applies; inside the tolerance the weights
are stored unchanged, so the stored sum need not be exactly 1.) -/
theorem init_weights_sum (weights : List (String × ℚ))
    (hpos : 0 < (weights.map Prod.snd).sum) :
    |((init_weights weights).map Prod.snd).sum - 1| ≤ 1/100 ∧
      (1/100 < |(weights.map Prod.snd).sum - 1| →
        ((init_weights weights).map Prod.snd).sum = 1) := by
  unfold init_weights
  by_cases h : 1/100 < |(weights.map Prod.snd).sum - 1|
  · rw [if_pos h]
    have hmm : (List.map Prod.snd
        (weights.map (fun p => (p.1, p.2 / (weights.map Prod.snd).sum)))) =
        (weights.map Prod.snd).map (fun x => x / (weights.map Prod.snd).sum) := by
      simp [List.map_map, Function.comp_def]
    rw [hmm, sum_map_div, div_self (ne_of_gt hpos)]
    norm_num
  · rw [if_neg h]
    push_neg at h
    exact ⟨h, fun hc => absurd hc (not_lt.mpr h)⟩

/-- Witness for C9 (amended) at the default weight map. -/
theorem init_weights_sum_witness :
    |((init_weights DEFAULT_WEIGHTS).map Prod.snd).sum - 1| ≤ 1/100 :=
  (init_weights_sum DEFAULT_WEIGHTS (by norm_num [DEFAULT_WEIGHTS])).1

/-- **C10.** `calculate_composite_score` succeeds on every metrics input as
soon as the weights map and the default-scores map each contain all three
metric names; and the weight map `{cited_by_percentile: 1.0}` is accepted
unchanged by the constructor (its total is exactly 1) yet makes
`calculate_composite_score` raise `KeyError` on every metrics input. -/
theorem calculate_composite_score_total_or_keyerror :
    (∀ (weights default_scores : List (String × ℚ)) (metrics : String → Option ℚ),
        (∀ name ∈ METRIC_NAMES, (dget? weights name).isSome) →
        (∀ name ∈ METRIC_NAMES, (dget? default_scores name).isSome) →
        ∃ q, calculate_composite_score weights default_scores metrics = Except.ok q) ∧
      (init_weights [("cited_by_percentile", 1)] = [("cited_by_percentile", 1)] ∧
        ∀ metrics : String → Option ℚ,
          calculate_composite_score [("cited_by_percentile", 1)] DEFAULT_SCORES metrics =
            Except.error "KeyError") := by
  have hr : ∀ name ∈ METRIC_NAMES, (dget? NORMALIZATION_RANGES name).isSome := by
    intro name hn
    simp only [METRIC_NAMES, List.mem_cons, List.not_mem_nil, or_false] at hn
    rcases hn with h | h | h <;> subst h <;> simp [dget?, NORMALIZATION_RANGES]
  constructor
  · intro weights default_scores metrics hw hd
    obtain ⟨q1, h1⟩ := calculate_metric_score_ok default_scores metrics "cited_by_percentile"
      (hd _ (by simp [METRIC_NAMES])) (hr _ (by simp [METRIC_NAMES]))
    obtain ⟨q2, h2⟩ := calculate_metric_score_ok default_scores metrics "h_index"
      (hd _ (by simp [METRIC_NAMES])) (hr _ (by simp [METRIC_NAMES]))
    obtain ⟨q3, h3⟩ := calculate_metric_score_ok default_scores metrics "impact_factor"
      (hd _ (by simp [METRIC_NAMES])) (hr _ (by simp [METRIC_NAMES]))
    obtain ⟨w1, hw1⟩ := Option.isSome_iff_exists.mp
      (hw _ (show "cited_by_percentile" ∈ METRIC_NAMES by simp [METRIC_NAMES]))
    obtain ⟨w2, hw2⟩ := Option.isSome_iff_exists.mp
      (hw _ (show "h_index" ∈ METRIC_NAMES by simp [METRIC_NAMES]))
    obtain ⟨w3, hw3⟩ := Option.isSome_iff_exists.mp
      (hw _ (show "impact_factor" ∈ METRIC_NAMES by simp [METRIC_NAMES]))
    refine ⟨q1 * w1 + (q2 * w2 + (q3 * w3 + 0)), ?_⟩
    simp [calculate_composite_score, METRIC_NAMES, List.mapM, List.mapM.loop, h1, h2, h3,
      dict_item, hw1, hw2, hw3, bind, Except.bind, pure, Except.pure]
  · have hd : ∀ name ∈ METRIC_NAMES, (dget? DEFAULT_SCORES name).isSome := by
      intro name hn
      simp only [METRIC_NAMES, List.mem_cons, List.not_mem_nil, or_false] at hn
      rcases hn with h | h | h <;> subst h <;> simp [dget?, DEFAULT_SCORES]
    refine ⟨?_, ?_⟩
    · have hc : ¬ (1/100 <
          |((([("cited_by_percentile", (1:ℚ))]).map Prod.snd).sum) - 1|) := by norm_num
      simp [init_weights, hc]
    · intro metrics
      obtain ⟨q1, h1⟩ := calculate_metric_score_ok DEFAULT_SCORES metrics "cited_by_percentile"
        (hd _ (by simp [METRIC_NAMES])) (hr _ (by simp [METRIC_NAMES]))
      obtain ⟨q2, h2⟩ := calculate_metric_score_ok DEFAULT_SCORES metrics "h_index"
        (hd _ (by simp [METRIC_NAMES])) (hr _ (by simp [METRIC_NAMES]))
      obtain ⟨q3, h3⟩ := calculate_metric_score_ok DEFAULT_SCORES metrics "impact_factor"
        (hd _ (by simp [METRIC_NAMES])) (hr _ (by simp [METRIC_NAMES]))
      simp [calculate_composite_score, METRIC_NAMES, List.mapM, List.mapM.loop, h1, h2, h3,
        dict_item, dget?, bind, Except.bind, pure, Except.pure]

/-- Witness for C10 at the default configuration and an empty metrics map. -/
theorem calculate_composite_score_total_witness :
    ∃ q, calculate_composite_score DEFAULT_WEIGHTS DEFAULT_SCORES (fun _ => none) =
      Except.ok q := by
  refine calculate_composite_score_total_or_keyerror.1 DEFAULT_WEIGHTS DEFAULT_SCORES
    (fun _ => none) ?_ ?_
  · intro name hn
    simp only [METRIC_NAMES, List.mem_cons, List.not_mem_nil, or_false] at hn
    rcases hn with h | h | h <;> subst h <;> simp [dget?, DEFAULT_WEIGHTS]
  · intro name hn
    simp only [METRIC_NAMES, List.mem_cons, List.not_mem_nil, or_false] at hn
    rcases hn with h | h | h <;> subst h <;> simp [dget?, DEFAULT_SCORES]

end JournalRanker


namespace ZoteroClient

theorem build_arxiv_cache_lookup (items : List Item) (v k : String)
    (h : ((build_arxiv_cache items).find? (fun p => p.1 == v)).map Prod.snd = some k) :
    ∃ it ∈ items, fieldValue it "archiveLocation" ≠ "" ∧
      strip (fieldValue it "archiveLocation") = v ∧ it.key = k := by
  induction items with
  | nil => simp [build_arxiv_cache] at h
  | cons it rest ih =>
    rw [build_arxiv_cache, List.find?_append] at h
    cases hfind : (build_arxiv_cache rest).find? (fun p => p.1 == v) with
    | some p =>
      rw [hfind] at h
      simp at h
      obtain ⟨it', hmem, h1, h2, h3⟩ := ih (by rw [hfind]; simp [h])
      exact ⟨it', List.mem_cons_of_mem _ hmem, h1, h2, h3⟩
    | none =>
      rw [hfind] at h
      simp only [Option.none_or] at h
      by_cases hne : fieldValue it "archiveLocation" ≠ ""
      · rw [if_pos hne] at h
        simp only [List.find?_singleton] at h
        by_cases hbeq : (strip (fieldValue it "archiveLocation") == v) = true
        · rw [if_pos hbeq] at h
          simp at h
          exact ⟨it, List.mem_cons_self it rest, hne, beq_iff_eq.mp hbeq, h⟩
        · rw [if_neg hbeq] at h
          simp at h
      · rw [if_neg hne] at h
        simp at h


theorem check_duplicate_refresh_eq (s : ClientState) (now : ℚ) (identifier : String)
    (hv : is_cache_valid s now = false) :
    check_duplicate s now identifier "archiveLocation" false true =
      (((build_arxiv_cache s.store).find? (fun p => p.1 == strip identifier)).map Prod.snd,
        { s with listings := s.listings + 1,
                 arxiv_id_cache := build_arxiv_cache s.store,
                 cache_timestamp := some now }) := by
  simp [check_duplicate, hv, refresh_arxiv_id_cache]

/-- **C4 counterexample.** The generic duplicate-lookup cache performs no age
check on read: with `CACHE_TTL_SECONDS = 300`, an entry stored at time 0 is
still returned as a cache hit by a read at time 400 (age 400 ≥ TTL), and no
remote listing is issued — the stale value is returned rather than treated
as a miss. -/
theorem lookup_cache_ignores_ttl :
    (check_duplicate stale_entry_state 400 "10.1234/x" "DOI" false true).1 = some "K" ∧
      (check_duplicate stale_entry_state 400 "10.1234/x" "DOI" false true).2.listings = 0 ∧
      (check_duplicate stale_entry_state 400 "10.1234/x" "DOI" false true).2.lookup_cache_hits
        = 1 := by
  refine ⟨rfl, rfl, rfl⟩

/-- **C4 (amended).** Only the accession-number (arXiv id) cache obeys the
TTL: a read when the entry's age is at or beyond `CACHE_TTL_SECONDS`
invalidates the cache, so the lookup is served from a fresh listing of the
remote store (the stale cache is never consulted).  The generic identifier
cache has no age check at all: a read returns whatever entry is present,
regardless of age (and the shipped code never populates that cache). -/
theorem arxiv_cache_ttl_miss (s : ClientState) (now t : ℚ) (identifier : String)
    (hts : s.cache_timestamp = some t) (hage : CACHE_TTL_SECONDS ≤ now - t) :
    check_duplicate s now identifier "archiveLocation" false true =
      (((build_arxiv_cache s.store).find? (fun p => p.1 == strip identifier)).map Prod.snd,
        { s with listings := s.listings + 1,
                 arxiv_id_cache := build_arxiv_cache s.store,
                 cache_timestamp := some now }) := by
  have hv : is_cache_valid s now = false := by
    simp [is_cache_valid, hts, not_lt.mpr hage]
  exact check_duplicate_refresh_eq s now identifier hv

/-- Witness for C4 (amended): a read at exactly the TTL age refreshes from
the (empty) store and misses. -/
theorem arxiv_cache_ttl_miss_witness :
    check_duplicate
        { empty_client_state with cache_timestamp := some 0,
                                  arxiv_id_cache := [("2401.00001", "OLD")] }
        300 "2401.00001" "archiveLocation" false true =
      (((build_arxiv_cache empty_client_state.store).find?
          (fun p => p.1 == strip "2401.00001")).map Prod.snd,
        { empty_client_state with cache_timestamp := some 300,
                                  arxiv_id_cache := build_arxiv_cache empty_client_state.store,
                                  listings := 1 }) :=
  arxiv_cache_ttl_miss
    { empty_client_state with cache_timestamp := some 0,
                              arxiv_id_cache := [("2401.00001", "OLD")] }
    300 0 "2401.00001" rfl (by norm_num [CACHE_TTL_SECONDS])

/-- **C5.** The generic branch of `check_duplicate` never writes to the
lookup cache (the cache can only keep or lose entries), so the promised
amortization does not happen: starting from a fresh client, two lookups of
the same DOI 10 seconds apart (well within the TTL) each issue a remote
listing — the second lookup is again a miss on the still-empty cache. -/
theorem lookup_cache_never_populated :
    (∀ (s : ClientState) (now : ℚ) (identifier identifier_field : String)
        (co lo : Bool),
        ((check_duplicate s now identifier identifier_field co lo).2.lookup_cache.length ≤
          s.lookup_cache.length)) ∧
      ((check_duplicate empty_client_state 0 "10.1234/x" "DOI" false true).2.lookup_cache
          = [] ∧
        (check_duplicate empty_client_state 0 "10.1234/x" "DOI" false true).2.listings = 1 ∧
        (check_duplicate
            (check_duplicate empty_client_state 0 "10.1234/x" "DOI" false true).2
            10 "10.1234/x" "DOI" false true).2.listings = 2 ∧
        (check_duplicate
            (check_duplicate empty_client_state 0 "10.1234/x" "DOI" false true).2
            10 "10.1234/x" "DOI" false true).2.lookup_cache_misses = 2) := by
  constructor
  · intro s now identifier identifier_field co lo
    unfold check_duplicate
    split
    · split <;> simp
    · split
      · split
        · simp
        · simp only [refresh_arxiv_id_cache]
          split <;> simp
      · cases hc : lookup_cache_get s (identifier_field ++ ":" ++ identifier) with
        | some cached => simp
        | none =>
          simp only
          split
          · split
            · simp only [List.length_drop]
              exact Nat.sub_le _ _
            · simp
          · simp
  · refine ⟨rfl, rfl, rfl, rfl⟩

/-- **C6 counterexample.** An item with arXiv id `2401.00001` is present in
the remote store, but the cache refresh fails (exception branch):
`check_duplicate` returns `None` — the present duplicate is reported as
absent, a false negative caused by a cache-refresh failure. -/
theorem refresh_failure_false_negative :
    (check_duplicate present_item_state 0 "2401.00001" "archiveLocation" false false).1
        = none ∧
      scan_for_field present_item_state.store "archiveLocation" "2401.00001" = some "K" := by
  refine ⟨rfl, rfl⟩

/-- **C6 (amended).** `check_duplicate` never reports a false positive at
refresh time: when the cache is invalid and the refresh succeeds, a returned
key always belongs to a listed item whose identifier field matches exactly
after stripping.  But false negatives do occur under failure: when the cache
is invalid and the refresh (or listing) raises, the resolver returns `None`
even if a matching item is present in the remote store — failures are
converted to "absent", not prevented from masking duplicates. -/
theorem check_duplicate_soundness_and_failure :
    (∀ (s : ClientState) (now : ℚ) (identifier : String),
        is_cache_valid s now = false →
        (check_duplicate s now identifier "archiveLocation" false false).1 = none) ∧
      (∀ (s : ClientState) (now : ℚ) (identifier k : String),
        is_cache_valid s now = false →
        (check_duplicate s now identifier "archiveLocation" false true).1 = some k →
        ∃ it ∈ s.store, fieldValue it "archiveLocation" ≠ "" ∧
          strip (fieldValue it "archiveLocation") = strip identifier ∧ it.key = k) := by
  constructor
  · intro s now identifier hv
    simp [check_duplicate, hv, refresh_arxiv_id_cache]
  · intro s now identifier k hv h
    rw [check_duplicate_refresh_eq s now identifier hv] at h
    exact build_arxiv_cache_lookup s.store (strip identifier) k h

/-- Witness for C6 (amended): with an invalid cache and a failing refresh the
resolver answers `None` even though the store holds a matching item. -/
theorem check_duplicate_soundness_and_failure_witness :
    (check_duplicate present_item_state 5 "2401.00001" "archiveLocation" false false).1
      = none :=
  check_duplicate_soundness_and_failure.1 present_item_state 5 "2401.00001" rfl

end ZoteroClient


namespace Orchestrator

theorem tally_spec (outcomes : List Outcome) :
    tally outcomes =
      (outcomes.countP (fun o => decide (o = Outcome.ok true)),
        outcomes.countP (fun o => decide (¬ o = Outcome.ok true))) := by
  induction outcomes with
  | nil => simp [tally]
  | cons o rest ih =>
    cases o with
    | ok b => cases b <;> simp [tally, ih, List.countP_cons]
    | raised => simp [tally, ih, List.countP_cons]

/-- **C7.** For every batch, `run_collection_async` returns a pair
`(successful, failed)` with `successful + failed` equal to the number of
papers; `successful` counts exactly the papers whose processing returned
`True`, and `failed` counts exactly the others — in particular a paper whose
processing raised an exception is counted as a failure (the wrapper catches
it; the tally is a total function, so nothing propagates), and each paper's
outcome contributes to exactly one counter independently of the other
papers' outcomes. -/
theorem run_collection_async_counts (outcomes : List Outcome) :
    (run_collection_async outcomes).1 + (run_collection_async outcomes).2
        = outcomes.length ∧
      (run_collection_async outcomes).1
          = outcomes.countP (fun o => decide (o = Outcome.ok true)) ∧
      (run_collection_async outcomes).2
          = outcomes.countP (fun o => decide (¬ o = Outcome.ok true)) := by
  by_cases h : outcomes = []
  · subst h; simp [run_collection_async]
  · rw [run_collection_async, if_neg h, tally_spec]
    refine ⟨?_, rfl, rfl⟩
    have := List.length_eq_countP_add_countP (fun o => decide (o = Outcome.ok true))
      (l := outcomes)
    rw [this]
    congr 1
    apply List.countP_congr
    intro o _
    simp

end Orchestrator

namespace PaperProcessor

/-- **C8.** Whenever the duplicate resolver returns an existing item key for
a paper that has a source id, `process_paper` returns success immediately
with the duplicate check as its only remote interaction: no create, no
add-to-collection, no PDF download, no attachment upload; and the
orchestrator tallies this outcome as a success, not a failure. -/
theorem duplicate_found_short_circuits (env : Env) (pid : String)
    (collection_key : Option String) (download_pdfs : Bool) (k : String)
    (hdup : env.dup_result = some k) :
    process_paper env (some pid) collection_key download_pdfs
        = (true, [Call.duplicate_check]) ∧
      Call.create ∉ (process_paper env (some pid) collection_key download_pdfs).2 ∧
      Call.add_to_collection ∉
        (process_paper env (some pid) collection_key download_pdfs).2 ∧
      Call.upload_attachment ∉
        (process_paper env (some pid) collection_key download_pdfs).2 ∧
      Orchestrator.tally [Orchestrator.Outcome.ok
          (process_paper env (some pid) collection_key download_pdfs).1] = (1, 0) := by
  have h : process_paper env (some pid) collection_key download_pdfs
      = (true, [Call.duplicate_check]) := by
    simp [process_paper, hdup]
  rw [h]
  refine ⟨rfl, by decide, by decide, by decide, rfl⟩

/-- Witness for C8 with a concrete environment whose resolver reports a
duplicate. -/
theorem duplicate_found_short_circuits_witness :
    process_paper ⟨some "K", none, true, true, true⟩ (some "2401.00001") none true
      = (true, [Call.duplicate_check]) :=
  (duplicate_found_short_circuits ⟨some "K", none, true, true, true⟩ "2401.00001" none true
    "K" rfl).1

end PaperProcessor

namespace RunStateResolver

theorem process_record_preserves (s : RState) (x : String)
    (hInv : ∀ k : String, s.creates.countP (fun c => c == k) ≤ 1 ∧
      (k ∈ s.creates → (rget? s.created_papers k).isSome)) :
    ∀ k : String, ((process_record s x).1).creates.countP (fun c => c == k) ≤ 1 ∧
      (k ∈ ((process_record s x).1).creates →
        (rget? ((process_record s x).1).created_papers k).isSome) := by
  intro k
  unfold process_record
  cases hd : check_duplicate s x with
  | some k0 => exact hInv k
  | none =>
    have hnone : rget? s.created_papers x = none := by
      unfold check_duplicate at hd
      cases hc : rget? s.created_papers x with
      | some k1 => rw [hc] at hd; simp at hd
      | none => rfl
    simp only [create_item]
    by_cases hxk : x = k
    · subst hxk
      have hnotmem : x ∉ s.creates := by
        intro hmem
        have := (hInv x).2 hmem
        rw [hnone] at this
        simp at this
      have hzero : s.creates.countP (fun c => c == x) = 0 := by
        rw [List.countP_eq_zero]
        intro a ha
        simp only [beq_iff_eq]
        intro hax
        exact hnotmem (hax ▸ ha)
      constructor
      · rw [List.countP_append, hzero]
        simp
      · intro _
        simp [rget?]
    · constructor
      · rw [List.countP_append]
        have : List.countP (fun c => c == k) [x] = 0 := by
          simp [List.countP_cons, hxk]
        rw [this, Nat.add_zero]
        exact (hInv k).1
      · intro hmem
        rw [List.mem_append] at hmem
        rcases hmem with hmem | hmem
        · have hold := (hInv k).2 hmem
          have hbeq : ¬ (((x, "item" ++ toString s.next_key)).1 == k) = true := by
            simp [hxk]
          have hfind : List.find? (fun p => p.1 == k)
              ((x, "item" ++ toString s.next_key) :: s.created_papers)
              = List.find? (fun p => p.1 == k) s.created_papers :=
            List.find?_cons_of_neg _ hbeq
          show ((List.find? (fun p => p.1 == k)
              ((x, "item" ++ toString s.next_key) :: s.created_papers)).map Prod.snd).isSome
          rw [hfind]
          exact hold
        · simp at hmem
          exact absurd hmem.symm hxk

theorem run_batch_preserves (batch : List String) (s : RState)
    (hInv : ∀ k : String, s.creates.countP (fun c => c == k) ≤ 1 ∧
      (k ∈ s.creates → (rget? s.created_papers k).isSome)) :
    ∀ k : String, (run_batch s batch).creates.countP (fun c => c == k) ≤ 1 ∧
      (k ∈ (run_batch s batch).creates →
        (rget? (run_batch s batch).created_papers k).isSome) := by
  induction batch generalizing s with
  | nil => exact hInv
  | cons x xs ih =>
    intro k
    rw [run_batch]
    exact ih (process_record s x).1 (process_record_preserves s x hInv) k

/-- **C1 (spec-modelled).** In the run-state duplicate resolver (modelled
from the spec; its source, `paperflow/clients/zotero_client.py`, is not in
the tree), the run's set of already-created identifiers is consulted before
any cache or remote lookup: over any batch, at most one create call reaches
the remote store per identifier, and a record whose identifier is already
registered in the run state is resolved to the already-created item id
without any state change (no second create). -/
theorem run_state_at_most_one_create :
    (∀ (store : List (String × String)) (batch : List String) (k : String),
        ((run_batch (init_state store) batch).creates.countP (fun c => c == k)) ≤ 1) ∧
      (∀ (s : RState) (identifier k : String),
        rget? s.created_papers identifier = some k →
        process_record s identifier = (s, k)) := by
  constructor
  · intro store batch k
    refine (run_batch_preserves batch (init_state store) ?_ k).1
    intro k0
    simp [init_state, rget?]
  · intro s identifier k h
    unfold process_record check_duplicate
    rw [h]

/-- Witness for C1: a record whose identifier was created earlier in the run
resolves to the created item id with no create. -/
theorem run_state_at_most_one_create_witness :
    process_record one_created_state "2401.00001" = (one_created_state, "item0") :=
  run_state_at_most_one_create.2 one_created_state "2401.00001" "item0" rfl

end RunStateResolver


namespace RateLimiter

theorem sleep1_nonneg (t0 : ℚ) (P : List ℚ) : 0 ≤ sleep1 t0 P := by
  unfold sleep1
  split
  · exact le_max_left _ _
  · exact le_refl 0

theorem sleep2_nonneg (t0 : ℚ) (P : List ℚ) : 0 ≤ sleep2 t0 P := by
  unfold sleep2
  cases P.getLast? with
  | none => exact le_refl 0
  | some x =>
    dsimp only
    split_ifs with h
    · have : t0 - x < ZOTERO_MIN_REQUEST_INTERVAL := h
      linarith
    · exact le_refl 0

theorem mem_takeWhile_pred (p : ℚ → Bool) (l : List ℚ) (x : ℚ)
    (h : x ∈ List.takeWhile p l) : p x = true := List.mem_takeWhile_imp h

theorem not_mem_prune_pred (t0 : ℚ) (l : List ℚ) (x : ℚ) (hx : x ∈ l)
    (hnx : x ∉ prune t0 l) : ZOTERO_RATE_LIMIT_WINDOW < t0 - x := by
  have hdecomp := List.takeWhile_append_dropWhile
    (fun y => decide (ZOTERO_RATE_LIMIT_WINDOW < t0 - y)) l
  rw [← hdecomp] at hx
  rcases List.mem_append.mp hx with h | h
  · exact of_decide_eq_true
      (mem_takeWhile_pred (fun y => decide (ZOTERO_RATE_LIMIT_WINDOW < t0 - y)) l x h)
  · exact absurd h hnx

theorem suffix_getLast_eq (l₁ l₂ : List ℚ) (h : l₁ <:+ l₂) (hne : l₁ ≠ []) :
    l₂.getLast? = l₁.getLast? := by
  obtain ⟨pre, rfl⟩ := h
  exact List.getLast?_append_of_ne_nil pre hne

theorem prune_head_in_window (t0 : ℚ) (l : List ℚ) (h : ℚ)
    (hh : (prune t0 l).head? = some h) : t0 - h ≤ ZOTERO_RATE_LIMIT_WINDOW := by
  have hnot := List.head?_dropWhile_not (fun x => decide (ZOTERO_RATE_LIMIT_WINDOW < t0 - x)) l
  rw [show (List.dropWhile (fun x => decide (ZOTERO_RATE_LIMIT_WINDOW < t0 - x)) l)
      = prune t0 l from rfl, hh] at hnot
  simpa using hnot

theorem getD_append_left' (l l' : List ℚ) (i : ℕ) (h : i < l.length) :
    (l ++ l').getD i 0 = l.getD i 0 := by
  simp [List.getD_eq_getElem?_getD, List.getElem?_append_left h]

theorem getD_concat_self (l : List ℚ) (a : ℚ) : (l ++ [a]).getD l.length 0 = a := by
  simp [List.getD_eq_getElem?_getD, List.getElem?_concat_length]

theorem getD_mem_of_lt (l : List ℚ) (i : ℕ) (h : i < l.length) : l.getD i 0 ∈ l := by
  rw [List.getD_eq_getElem l 0 h]
  exact List.getElem_mem h

theorem pairwise_getD_mono (l : List ℚ) (hl : l.Pairwise (fun a b : ℚ => a ≤ b)) (i j : ℕ)
    (hij : i ≤ j) (hj : j < l.length) : l.getD i 0 ≤ l.getD j 0 := by
  rcases eq_or_lt_of_le hij with rfl | hlt
  · exact le_refl _
  · rw [List.getD_eq_getElem l 0 (lt_trans hlt hj), List.getD_eq_getElem l 0 hj]
    exact (List.pairwise_iff_getElem.mp hl) i j (lt_trans hlt hj) hj hlt

theorem oe_add_le (f : ℕ ↪o ℕ) (i k : ℕ) : f i + k ≤ f (i + k) := by
  induction k with
  | zero => simp
  | succ k ih =>
    have h1 : f (i + k) < f (i + k + 1) := f.strictMono (Nat.lt_succ_self _)
    show f i + (k + 1) ≤ f (i + k + 1)
    omega

end RateLimiter


namespace RateLimiter

theorem prune_len_le_90 (st : LState) (H : Inv st) (t0 : ℚ) (hnow : st.now ≤ t0) :
    (prune t0 st.request_times).length ≤ 90 := by
  have hlen : (prune t0 st.request_times).length ≤ st.request_times.length :=
    (List.dropWhile_suffix _).sublist.length_le
  rcases Nat.lt_or_ge st.request_times.length 91 with hlt | hge
  · omega
  · have h91 : st.request_times.length = 91 := Nat.le_antisymm H.len_le hge
    obtain ⟨h, t, hrt⟩ : ∃ h t, st.request_times = h :: t := by
      cases hc : st.request_times with
      | nil => rw [hc] at h91; simp at h91
      | cons a b => exact ⟨a, b, rfl⟩
    have hhead : h + ZOTERO_RATE_LIMIT_WINDOW + ZOTERO_RATE_LIMIT_BUFFER ≤ st.now :=
      H.len91 h91 h (by rw [hrt]; rfl)
    have hB : (0:ℚ) < ZOTERO_RATE_LIMIT_BUFFER := by norm_num [ZOTERO_RATE_LIMIT_BUFFER]
    have hpred : decide (ZOTERO_RATE_LIMIT_WINDOW < t0 - h) = true := by
      apply decide_eq_true
      linarith
    have hPeq : prune t0 st.request_times
        = List.dropWhile (fun x => decide (ZOTERO_RATE_LIMIT_WINDOW < t0 - x)) t := by
      rw [hrt]
      unfold prune
      rw [List.dropWhile_cons, if_pos hpred]
    have hlt : (List.dropWhile (fun x => decide (ZOTERO_RATE_LIMIT_WINDOW < t0 - x)) t).length
        ≤ t.length := (List.dropWhile_suffix _).sublist.length_le
    have ht_len : t.length = 90 := by
      rw [hrt] at h91
      simpa using h91
    rw [hPeq]
    omega

theorem inv_step (st : LState) (H : Inv st) (t0 t1 : ℚ) (hnow_t0 : st.now ≤ t0)
    (ht1 : t0 + sleep1 t0 (prune t0 st.request_times)
        + sleep2 t0 (prune t0 st.request_times) ≤ t1) :
    Inv { request_times := prune t0 st.request_times ++ [t1],
          hist := st.hist ++ [t1], now := t1 } := by
  have hW : ZOTERO_RATE_LIMIT_WINDOW = 600 := rfl
  have hB : ZOTERO_RATE_LIMIT_BUFFER = 5 := rfl
  have hM : ZOTERO_MIN_REQUEST_INTERVAL = 6 := rfl
  have hs1n : 0 ≤ sleep1 t0 (prune t0 st.request_times) := sleep1_nonneg _ _
  have hs2n : 0 ≤ sleep2 t0 (prune t0 st.request_times) := sleep2_nonneg _ _
  have ht0_t1 : t0 ≤ t1 := by linarith
  have hnow_t1 : st.now ≤ t1 := le_trans hnow_t0 ht0_t1
  have hPsuf : prune t0 st.request_times <:+ st.request_times := List.dropWhile_suffix _
  have hPhist : prune t0 st.request_times <:+ st.hist := hPsuf.trans H.suffix
  have hP90 : (prune t0 st.request_times).length ≤ 90 := prune_len_le_90 st H t0 hnow_t0
  have hgap_t1 : st.hist ≠ [] → st.now + ZOTERO_MIN_REQUEST_INTERVAL ≤ t1 := by
    intro hne
    have hrt_last : st.request_times.getLast? = some st.now := H.last_eq hne
    by_cases hPnil : prune t0 st.request_times = []
    · have hmem : st.now ∈ st.request_times := List.mem_of_mem_getLast? hrt_last
      have hdropped : ZOTERO_RATE_LIMIT_WINDOW < t0 - st.now := by
        refine not_mem_prune_pred t0 st.request_times st.now hmem ?_
        rw [hPnil]
        simp
      linarith
    · have hPlast : (prune t0 st.request_times).getLast? = some st.now := by
        rw [← suffix_getLast_eq _ _ hPsuf hPnil]
        exact hrt_last
      have hs2eq : sleep2 t0 (prune t0 st.request_times)
          = if t0 - st.now < ZOTERO_MIN_REQUEST_INTERVAL then
              ZOTERO_MIN_REQUEST_INTERVAL - (t0 - st.now) else 0 := by
        unfold sleep2
        rw [hPlast]
      split_ifs at hs2eq with hcond
      · linarith
      · push_neg at hcond
        linarith
  refine ⟨?_, ?_, ?_, ?_, ?_, ?_, ?_, ?_⟩
  · show (st.hist ++ [t1]).Pairwise _
    rw [List.pairwise_append]
    refine ⟨H.gaps, by simp, ?_⟩
    intro x hx y hy
    simp only [List.mem_singleton] at hy
    subst hy
    have hxle : x ≤ st.now := H.le_now x hx
    have hne : st.hist ≠ [] := by
      intro hcon
      rw [hcon] at hx
      simp at hx
    have := hgap_t1 hne
    linarith
  · intro x hx
    rcases List.mem_append.mp hx with h | h
    · exact le_trans (H.le_now x h) hnow_t1
    · simp only [List.mem_singleton] at h
      subst h
      exact le_refl _
  · obtain ⟨pre, hpre⟩ := hPhist
    exact ⟨pre, by rw [← List.append_assoc, hpre]⟩
  · intro _
    simp
  · show (prune t0 st.request_times ++ [t1]).length ≤ 91
    rw [List.length_append]
    simp only [List.length_singleton]
    omega
  · intro hlen h hhead
    have hPlen90 : (prune t0 st.request_times).length = 90 := by
      have : (prune t0 st.request_times ++ [t1]).length
          = (prune t0 st.request_times).length + 1 := by
        rw [List.length_append, List.length_singleton]
      rw [this] at hlen
      omega
    obtain ⟨p, ps, hPcase⟩ : ∃ p ps, prune t0 st.request_times = p :: ps := by
      cases hc : prune t0 st.request_times with
      | nil => rw [hc] at hPlen90; simp at hPlen90
      | cons a b => exact ⟨a, b, rfl⟩
    have hh : h = p := by
      rw [hPcase] at hhead
      simp only [List.cons_append, List.head?_cons, Option.some.injEq] at hhead
      exact hhead.symm
    subst hh
    have hthr : ZOTERO_RATE_LIMIT_THRESHOLD ≤ (prune t0 st.request_times).length := by
      rw [hPlen90]
      norm_num [ZOTERO_RATE_LIMIT_THRESHOLD]
    have hs1eq : sleep1 t0 (prune t0 st.request_times)
        = max 0 (ZOTERO_RATE_LIMIT_WINDOW - (t0 - (prune t0 st.request_times).headD 0)
            + ZOTERO_RATE_LIMIT_BUFFER) := by
      unfold sleep1
      rw [if_pos hthr]
    have hheadD : (prune t0 st.request_times).headD 0 = h := by
      rw [hPcase]
      rfl
    have hs1ge : ZOTERO_RATE_LIMIT_WINDOW - (t0 - h) + ZOTERO_RATE_LIMIT_BUFFER
        ≤ sleep1 t0 (prune t0 st.request_times) := by
      rw [hs1eq, hheadD]
      exact le_max_right _ _
    show h + ZOTERO_RATE_LIMIT_WINDOW + ZOTERO_RATE_LIMIT_BUFFER ≤ t1
    linarith
  · intro x hx hnx
    show x + ZOTERO_RATE_LIMIT_WINDOW < t1
    rcases List.mem_append.mp hx with hxh | hxt
    · by_cases hxrt : x ∈ st.request_times
      · have hxnP : x ∉ prune t0 st.request_times := fun hmem =>
          hnx (List.mem_append.mpr (Or.inl hmem))
        have := not_mem_prune_pred t0 st.request_times x hxrt hxnP
        linarith
      · have := H.removed x hxh hxrt
        linarith
    · simp only [List.mem_singleton] at hxt
      subst hxt
      exact absurd (List.mem_append.mpr (Or.inr (by simp))) hnx
  · intro i hi
    show (st.hist ++ [t1]).getD i 0 + ZOTERO_RATE_LIMIT_WINDOW
        < (st.hist ++ [t1]).getD (i + 100) 0
    rw [List.length_append, List.length_singleton] at hi
    rcases Nat.lt_or_ge (i + 100) st.hist.length with hlt | hge
    · rw [getD_append_left' _ _ _ hlt, getD_append_left' _ _ _ (by omega)]
      exact H.far i hlt
    · have hEq : i + 100 = st.hist.length := by omega
      have h2 : (st.hist ++ [t1]).getD (i + 100) 0 = t1 := by
        rw [hEq]
        exact getD_concat_self _ _
      have hilt : i < st.hist.length := by omega
      have h1 : (st.hist ++ [t1]).getD i 0 = st.hist.getD i 0 :=
        getD_append_left' _ _ _ hilt
      rw [h1, h2]
      have hxmem : st.hist.getD i 0 ∈ st.hist := getD_mem_of_lt _ _ hilt
      have hxnotP : st.hist.getD i 0 ∉ prune t0 st.request_times := by
        intro hmem
        obtain ⟨pre, hpre⟩ := hPhist
        have hnodup : st.hist.Nodup := by
          have hpw : st.hist.Pairwise (fun a b : ℚ => a < b) :=
            List.Pairwise.imp (fun hab => by rw [hM] at hab; linarith) H.gaps
          exact List.Pairwise.imp (fun hab => ne_of_lt hab) hpw
        rw [← hpre] at hnodup
        have hdisj := (List.nodup_append.mp hnodup).2.2
        have hprelen : pre.length + (prune t0 st.request_times).length = st.hist.length := by
          rw [← hpre, List.length_append]
        have hipre : i < pre.length := by omega
        have hxpre : st.hist.getD i 0 ∈ pre := by
          have hgd : st.hist.getD i 0 = pre.getD i 0 := by
            rw [← hpre]
            exact getD_append_left' _ _ _ hipre
          rw [hgd]
          exact getD_mem_of_lt _ _ hipre
        exact hdisj hxpre hmem
      by_cases hxrt : st.hist.getD i 0 ∈ st.request_times
      · have := not_mem_prune_pred t0 st.request_times _ hxrt hxnotP
        linarith
      · have := H.removed _ hxmem hxrt
        linarith

theorem acquire_inv (st : LState) (c d : ℚ) (hc : 0 ≤ c) (hd : 0 ≤ d) (H : Inv st) :
    Inv (acquire st c d) := by
  have hP90 := prune_len_le_90 st H (st.now + c) (by linarith)
  have hne : ¬ ((prune (st.now + c) st.request_times).length
      = ZOTERO_RATE_LIMIT_MAX_REQUESTS) := by
    have hmax : ZOTERO_RATE_LIMIT_MAX_REQUESTS = 100 := rfl
    omega
  have heq : acquire st c d
      = { request_times := prune (st.now + c) st.request_times
            ++ [st.now + c + sleep1 (st.now + c) (prune (st.now + c) st.request_times)
                + sleep2 (st.now + c) (prune (st.now + c) st.request_times) + d],
          hist := st.hist
            ++ [st.now + c + sleep1 (st.now + c) (prune (st.now + c) st.request_times)
                + sleep2 (st.now + c) (prune (st.now + c) st.request_times) + d],
          now := st.now + c + sleep1 (st.now + c) (prune (st.now + c) st.request_times)
                + sleep2 (st.now + c) (prune (st.now + c) st.request_times) + d } := by
    simp only [acquire]
    rw [if_neg hne]
  rw [heq]
  refine inv_step st H (st.now + c) _ (by linarith) ?_
  have h1 := sleep1_nonneg (st.now + c) (prune (st.now + c) st.request_times)
  have h2 := sleep2_nonneg (st.now + c) (prune (st.now + c) st.request_times)
  linarith

theorem inv_init (t : ℚ) : Inv (init_state t) := by
  refine ⟨?_, ?_, ?_, ?_, ?_, ?_, ?_, ?_⟩
  · exact List.Pairwise.nil
  · intro x hx
    simp [init_state] at hx
  · exact ⟨[], rfl⟩
  · intro h
    exact absurd rfl h
  · show (0:ℕ) ≤ 91
    omega
  · intro h
    simp [init_state] at h
  · intro x hx
    simp [init_state] at hx
  · intro i hi
    simp [init_state] at hi

theorem run_inv (l : List (ℚ × ℚ)) (st : LState) (hst : Inv st) (hl : ValidSchedule l) :
    Inv (run st l) := by
  induction l generalizing st with
  | nil => exact hst
  | cons p ps ih =>
    rw [run]
    refine ih (acquire st p.1 p.2) ?_ ?_
    · exact acquire_inv st p.1 p.2 (hl p (by simp)).1 (hl p (by simp)).2 hst
    · intro q hq
      exact hl q (List.mem_cons_of_mem _ hq)

end RateLimiter


namespace RateLimiter

theorem window_count_le (l : List ℚ) (hmono : l.Pairwise (fun a b : ℚ => a ≤ b))
    (hfar : ∀ i : ℕ, i + 100 < l.length →
      l.getD i 0 + ZOTERO_RATE_LIMIT_WINDOW < l.getD (i + 100) 0) (a : ℚ) :
    l.countP (fun x => decide (a ≤ x ∧ x ≤ a + ZOTERO_RATE_LIMIT_WINDOW)) ≤ 100 := by
  by_contra hcon
  push_neg at hcon
  rw [List.countP_eq_length_filter] at hcon
  have hsub : List.Sublist
      (l.filter (fun x => decide (a ≤ x ∧ x ≤ a + ZOTERO_RATE_LIMIT_WINDOW))) l :=
    List.filter_sublist l
  obtain ⟨g, hg⟩ := List.sublist_iff_exists_orderEmbedding_get?_eq.mp hsub
  have h0lt : 0 < (l.filter
      (fun x => decide (a ≤ x ∧ x ≤ a + ZOTERO_RATE_LIMIT_WINDOW))).length := by omega
  have h100lt : 100 < (l.filter
      (fun x => decide (a ≤ x ∧ x ≤ a + ZOTERO_RATE_LIMIT_WINDOW))).length := hcon
  have e0 := List.get?_eq_get h0lt
  have e100 := List.get?_eq_get h100lt
  have hL0 : l.get? (g 0) = some ((l.filter
      (fun x => decide (a ≤ x ∧ x ≤ a + ZOTERO_RATE_LIMIT_WINDOW))).get ⟨0, h0lt⟩) := by
    rw [← hg 0, e0]
  have hL100 : l.get? (g 100) = some ((l.filter
      (fun x => decide (a ≤ x ∧ x ≤ a + ZOTERO_RATE_LIMIT_WINDOW))).get ⟨100, h100lt⟩) := by
    rw [← hg 100, e100]
  obtain ⟨hg0lt, hx0⟩ := List.get?_eq_some.mp hL0
  obtain ⟨hg100lt, hx100⟩ := List.get?_eq_some.mp hL100
  have hD0 : l.getD (g 0) 0 = (l.filter
      (fun x => decide (a ≤ x ∧ x ≤ a + ZOTERO_RATE_LIMIT_WINDOW))).get ⟨0, h0lt⟩ := by
    rw [List.getD_eq_getElem l 0 hg0lt, ← hx0]
    rfl
  have hD100 : l.getD (g 100) 0 = (l.filter
      (fun x => decide (a ≤ x ∧ x ≤ a + ZOTERO_RATE_LIMIT_WINDOW))).get ⟨100, h100lt⟩ := by
    rw [List.getD_eq_getElem l 0 hg100lt, ← hx100]
    rfl
  have hadd : g 0 + 100 ≤ g 100 := oe_add_le g 0 100
  have hfar0 := hfar (g 0) (by omega)
  have hmono0 := pairwise_getD_mono l hmono (g 0 + 100) (g 100) hadd hg100lt
  have hm0 : (l.filter (fun x => decide (a ≤ x ∧ x ≤ a + ZOTERO_RATE_LIMIT_WINDOW))).get
      ⟨0, h0lt⟩ ∈ l.filter (fun x => decide (a ≤ x ∧ x ≤ a + ZOTERO_RATE_LIMIT_WINDOW)) :=
    List.get_mem _ _ _
  have hm100 : (l.filter (fun x => decide (a ≤ x ∧ x ≤ a + ZOTERO_RATE_LIMIT_WINDOW))).get
      ⟨100, h100lt⟩ ∈ l.filter (fun x => decide (a ≤ x ∧ x ≤ a + ZOTERO_RATE_LIMIT_WINDOW)) :=
    List.get_mem _ _ _
  have hp0 := List.of_mem_filter hm0
  have hp100 := List.of_mem_filter hm100
  rw [decide_eq_true_eq] at hp0 hp100
  rw [hD0] at hfar0
  rw [hD100] at hmono0
  have := hp0.1
  have := hp100.2
  linarith

/-- **C2.** Run any schedule of guarded requests (nonnegative caller gaps
and call durations) from a fresh client: among all the timestamps ever
recorded by `_track_request` (the ghost history, not just the bounded
deque), no closed sliding window of the quota duration (600 s) contains
more than the quota maximum (100) timestamps.  Because the bound holds over
the full history, a request can never be admitted by a timestamp silently
falling out of the accounting — admission is only ever delayed by the two
sleeps of `_rate_limit`. -/
theorem no_window_exceeds_quota (l : List (ℚ × ℚ)) (hl : ValidSchedule l) (t a : ℚ) :
    ((run (init_state t) l).hist.countP
        (fun x => decide (a ≤ x ∧ x ≤ a + ZOTERO_RATE_LIMIT_WINDOW)))
      ≤ ZOTERO_RATE_LIMIT_MAX_REQUESTS := by
  have H := run_inv l (init_state t) (inv_init t) hl
  have hmono : (run (init_state t) l).hist.Pairwise (fun a b : ℚ => a ≤ b) :=
    List.Pairwise.imp (fun hab => by
      have hM : ZOTERO_MIN_REQUEST_INTERVAL = 6 := rfl
      linarith) H.gaps
  exact window_count_le _ hmono H.far a

/-- Witness for C2 on a concrete two-request schedule. -/
theorem no_window_exceeds_quota_witness :
    ValidSchedule [((0:ℚ), (0:ℚ)), (0, 0)] ∧
      ((run (init_state 0) [((0:ℚ), (0:ℚ)), (0, 0)]).hist.countP
          (fun x => decide (0 ≤ x ∧ x ≤ 0 + ZOTERO_RATE_LIMIT_WINDOW)))
        ≤ ZOTERO_RATE_LIMIT_MAX_REQUESTS :=
  ⟨by unfold ValidSchedule; decide,
    no_window_exceeds_quota [((0:ℚ), (0:ℚ)), (0, 0)] (by unfold ValidSchedule; decide) 0 0⟩

/-- **C3.** On each `_rate_limit` call with entry clock `t0 = now + c`: the
timestamps older than the 600 s window are removed first (the deque after
the call is exactly the pruned list plus the newly recorded timestamp);
when at least 90 timestamps remain after pruning, the threshold sleep is
exactly `window - (t0 - oldest) + buffer` (the `sleep_time > 0` guard never
clips it, because the surviving oldest timestamp is within the window), and
it is 0 below the threshold; afterwards, on the same call, the
minimum-interval sleep is `6 - (t0 - last)` exactly when the most recent
recorded timestamp is less than 6 s old relative to the entry clock, and 0
otherwise; the recorded timestamp reflects both sleeps applied sequentially
plus the call duration. -/
theorem rate_limit_two_phase (st : LState) (c d : ℚ) (hc : 0 ≤ c) (H : Inv st) :
    (acquire st c d).now
        = (st.now + c) + sleep1 (st.now + c) (prune (st.now + c) st.request_times)
          + sleep2 (st.now + c) (prune (st.now + c) st.request_times) + d ∧
      (acquire st c d).request_times
        = prune (st.now + c) st.request_times ++ [(acquire st c d).now] ∧
      (∀ h, (prune (st.now + c) st.request_times).head? = some h →
        ZOTERO_RATE_LIMIT_THRESHOLD ≤ (prune (st.now + c) st.request_times).length →
        sleep1 (st.now + c) (prune (st.now + c) st.request_times)
          = ZOTERO_RATE_LIMIT_WINDOW - ((st.now + c) - h) + ZOTERO_RATE_LIMIT_BUFFER) ∧
      ((prune (st.now + c) st.request_times).length < ZOTERO_RATE_LIMIT_THRESHOLD →
        sleep1 (st.now + c) (prune (st.now + c) st.request_times) = 0) ∧
      (∀ x, (prune (st.now + c) st.request_times).getLast? = some x →
        sleep2 (st.now + c) (prune (st.now + c) st.request_times)
          = if (st.now + c) - x < ZOTERO_MIN_REQUEST_INTERVAL then
              ZOTERO_MIN_REQUEST_INTERVAL - ((st.now + c) - x) else 0) := by
  have hP90 := prune_len_le_90 st H (st.now + c) (by linarith)
  have hne : ¬ ((prune (st.now + c) st.request_times).length
      = ZOTERO_RATE_LIMIT_MAX_REQUESTS) := by
    have hmax : ZOTERO_RATE_LIMIT_MAX_REQUESTS = 100 := rfl
    omega
  refine ⟨rfl, ?_, ?_, ?_, ?_⟩
  · show (acquire st c d).request_times
        = prune (st.now + c) st.request_times ++ [(acquire st c d).now]
    simp only [acquire]
    rw [if_neg hne]
  · intro h hh hthr
    have hin := prune_head_in_window (st.now + c) st.request_times h hh
    have hheadD : (prune (st.now + c) st.request_times).headD 0 = h := by
      cases hcc : prune (st.now + c) st.request_times with
      | nil => rw [hcc] at hh; simp at hh
      | cons p ps =>
        rw [hcc] at hh
        simp only [List.head?_cons, Option.some.injEq] at hh
        rw [List.headD_cons]
        exact hh
    unfold sleep1
    rw [if_pos hthr, hheadD]
    refine max_eq_right ?_
    have hB : ZOTERO_RATE_LIMIT_BUFFER = 5 := rfl
    linarith
  · intro hlt
    unfold sleep1
    rw [if_neg (by omega)]
  · intro x hx
    unfold sleep2
    rw [hx]

/-- Witness for C3 at a fresh client. -/
theorem rate_limit_two_phase_witness :
    (acquire (init_state 0) 0 0).now
      = ((init_state 0).now + 0)
        + sleep1 ((init_state 0).now + 0)
            (prune ((init_state 0).now + 0) (init_state 0).request_times)
        + sleep2 ((init_state 0).now + 0)
            (prune ((init_state 0).now + 0) (init_state 0).request_times) + 0 :=
  (rate_limit_two_phase (init_state 0) 0 0 (le_refl 0) (inv_init 0)).1

end RateLimiter
